import Mathlib

/-!
Shallow embedding of the core data pipeline of `slot_data_viewer_gdrive.py`:
loading a CSV table, filtering rows by model, building the machine-by-date
pivot, and computing 7-day / 14-day trailing means with `min_periods=1`.
Dates are modelled as natural numbers (any order-preserving encoding of
calendar dates); metric values are exact rationals.
-/

namespace SlotViewer

/-- Column-name constants of the script (`DATE_COL`, `MODEL_COL`,
`MACHINE_COL`, `STORE_COL` at lines 25-28 of the source). -/
def DATE_COL : String := "日付"

def MODEL_COL : String := "機種名"

def MACHINE_COL : String := "台番号"

def STORE_COL : String := "店舗名"

/-- One row of the loaded table: date, model name, machine id, store name and
the variable set of numeric metric columns (`metrics` is the mapping from
metric column name to its value for this row). -/
structure Record where
  date : Nat
  model : String
  machine : Nat
  store : String
  metrics : List (String × ℚ)
deriving DecidableEq

/-- A loaded table is the ordered list of its rows. -/
abbrev Table := List Record

/-- Value of metric column `c` in row `r` (first binding wins, as in a
dataframe where each column name appears once). -/
def getMetric (r : Record) (c : String) : Option ℚ :=
  (r.metrics.find? (fun p => p.1 == c)).map Prod.snd

/-- `filtered_df = df[df[MODEL_COL] == model]` (line 171): keep exactly the
rows whose model column equals the selected model, in original order. -/
def filterByModel (t : Table) (m : String) : Table :=
  t.filter (fun r => r.model == m)

/-- The distinct values of the model column, as offered by the sidebar
selectbox (line 170). -/
def distinctModels (t : Table) : List String :=
  (t.map Record.model).dedup

/-- One row of a single machine's metric series: the date and the value of the
chosen metric column. -/
structure SRow where
  date : Nat
  value : ℚ
deriving DecidableEq

instance : Inhabited SRow := ⟨⟨0, 0⟩⟩

instance : IsTotal SRow (fun a b => a.date ≤ b.date) :=
  ⟨fun a b => Nat.le_total a.date b.date⟩

instance : IsTrans SRow (fun a b => a.date ≤ b.date) :=
  ⟨fun _ _ _ => Nat.le_trans⟩

instance : IsAntisymm SRow (fun a b => a.date < b.date) :=
  ⟨fun _ _ h1 h2 => absurd (Nat.lt_trans h1 h2) (Nat.lt_irrefl _)⟩

/-- One output row of the moving-average computation: date, raw value, 7-day
trailing mean, 14-day trailing mean. -/
structure DRow where
  date : Nat
  value : ℚ
  ma7 : ℚ
  ma14 : ℚ
deriving DecidableEq

instance : Inhabited DRow := ⟨⟨0, 0, 0, 0⟩⟩

/-- `sort_values(DATE_COL)` on a machine series: stable sort ascending by
date (line 118). -/
def sortByDate (s : List SRow) : List SRow :=
  List.insertionSort (fun a b => a.date ≤ b.date) s

/-- The trailing window of size at most `w` ending at position `p`: the last
`min w (p+1)` values up to and including position `p` (`p + 1 - w` is
truncated subtraction, so the window is clipped at the start of the list). -/
def windowAt (w : Nat) (xs : List ℚ) (p : Nat) : List ℚ :=
  (xs.take (p + 1)).drop (p + 1 - w)

/-- `Series.rolling(window=w, min_periods=1).mean()` (lines 119-120): the
output at position `p` is the mean of the clipped trailing window ending at
`p`. -/
def rollingMean (w : Nat) (xs : List ℚ) : List ℚ :=
  (List.range xs.length).map (fun p => (windowAt w xs p).sum / ((windowAt w xs p).length : ℚ))

/-- The moving-average computation of `plot_moving_average` (lines 118-120):
sort the series by date, then attach the 7-day and 14-day trailing means of
the metric column. -/
def computeRollingAverages (s : List SRow) : List DRow :=
  let sorted := sortByDate s
  let vals := sorted.map SRow.value
  (sorted.zip ((rollingMean 7 vals).zip (rollingMean 14 vals))).map
    (fun p => { date := p.1.date, value := p.1.value, ma7 := p.2.1, ma14 := p.2.2 })

/-- Extraction of one machine's series from a filtered view (line 200 plus the
column selection at line 209): the rows of the given machine, each paired with
its value of the chosen metric column (in a loaded table every row carries the
same metric columns). -/
def machineSeries (t : Table) (machine : Nat) (col : String) : List SRow :=
  (t.filter (fun r => r.machine == machine)).filterMap
    (fun r => (getMetric r col).map (fun v => { date := r.date, value := v }))

/-! ### Pivot construction (line 184)

`filtered_df.pivot(index=MACHINE_COL, columns=DATE_COL, values=heatmap_col)`.
`DataFrame.pivot` builds the full machine-by-date grid with a missing-value
marker (`NaN`, modelled as `none`) for absent combinations, and raises
`ValueError: Index contains duplicate entries, cannot reshape` whenever two
rows share the same (machine, date) pair. The order of the grid's rows and
columns is abstracted away (pandas sorts them); the claims are about the set
of cells. -/

/-- The (machine id, date) key of each row of the view, in row order. -/
def pivotKeys (view : Table) : List (Nat × Nat) :=
  view.map (fun r => (r.machine, r.date))

/-- Cell content of the pivot at (machine `m`, date `d`): the metric value of
the row with that key, or `none` when the view has no such row (the `NaN`
cell of the pandas pivot). -/
def cellValue (view : Table) (metric : String) (m d : Nat) : Option ℚ :=
  (view.find? (fun r => r.machine == m && r.date == d)).bind
    (fun r => getMetric r metric)

/-- `DataFrame.pivot`: the full grid over the distinct machines and distinct
dates of the view, or the pandas `ValueError` when some (machine, date) key
occurs twice. A grid cell is `((machine, date), some v)` for a present value
and `((machine, date), none)` for a missing combination. -/
def buildPivot (view : Table) (metric : String) :
    Except String (List ((Nat × Nat) × Option ℚ)) :=
  if (pivotKeys view).Nodup then
    .ok ((((view.map Record.machine).dedup).product ((view.map Record.date).dedup)).map
      (fun md => (md, cellValue view metric md.1 md.2)))
  else
    .error "Index contains duplicate entries, cannot reshape"

/-! ### The loader (lines 48-66 and 154-167)

`load_data` fetches a CSV resource, parses it and converts the date column
with `pd.to_datetime`, re-raising any failure; `main` then verifies that the
mandatory date / model / machine columns are present.  The fetched resource
is modelled as either unreachable, unparsable as CSV, or a parsed header row
plus data rows; `pd.to_datetime` on a cell is modelled by an abstract numeric
date parse. -/

/-- The state of the remote CSV resource as `pd.read_csv(url)` sees it. The
`cause` strings stand for the original exception messages. -/
inductive Resource where
  | unreachable (cause : String)
  | unparsable (cause : String)
  | csv (cols : List String) (rows : List (List String))
deriving DecidableEq

/-- The single error surfaced by the loading pipeline. `fetch` and `parse`
carry the original cause re-raised by `load_data` (line 66); `badDate` is a
failed date conversion at line 61; `missingColumn` is the required-column
check of `main` (lines 163-167). -/
inductive LoadError where
  | fetch (cause : String)
  | parse (cause : String)
  | badDate (cell : String)
  | missingColumn (c : String)
deriving DecidableEq

/-- Date parsing of one cell (stand-in for `pd.to_datetime` on one value):
the cell must read as a numeric day key. -/
def parseDate (s : String) : Option Nat :=
  s.toNat?

/-- The date cell of a row, by the position of `DATE_COL` in the header. -/
def dateCell (cols : List String) (row : List String) : Option String :=
  (cols.indexOf? DATE_COL).bind (fun i => row.get? i)

/-- `load_data` (lines 48-66): read the CSV and convert the date column to a
date type, re-raising the original error on any failure (unreachable
resource, unparsable CSV, missing date column, or a date cell that does not
convert). -/
def load_data (r : Resource) : Except LoadError (List String × List (List String)) :=
  match r with
  | .unreachable cause => .error (.fetch cause)
  | .unparsable cause => .error (.parse cause)
  | .csv cols rows =>
    if DATE_COL ∈ cols then
      match rows.find? (fun row => !((dateCell cols row).bind parseDate).isSome) with
      | some badRow => .error (.badDate (((dateCell cols badRow).getD "")))
      | none => .ok (cols, rows)
    else
      .error (.missingColumn DATE_COL)

/-- The first mandatory column absent from the header, scanning in the order
of `required_columns` at line 163. -/
def firstMissingColumn (cols : List String) : Option String :=
  [DATE_COL, MODEL_COL, MACHINE_COL].find? (fun c => !(cols.contains c))

/-- The full load pipeline: `load_data` followed by the required-column
validation of `main` (lines 155-167). -/
def load (r : Resource) : Except LoadError (List String × List (List String)) :=
  match load_data r with
  | .error e => .error e
  | .ok t =>
    match firstMissingColumn t.1 with
    | some c => .error (.missingColumn c)
    | none => .ok t

/-! ### Frame effect of `plot_moving_average` (lines 114-120)

To talk about mutation, dataframe objects live on an explicit heap and are
addressed by index.  `target_df.copy()` allocates a fresh frame,
`sort_values` returns another fresh frame, and the column assignments
`ma_df["MA7"] = ...`, `ma_df["MA14"] = ...` mutate the addressed frame in
place.  A frame is its series rows plus the columns attached by assignment. -/

/-- A dataframe object: the (date, metric) rows of the selected machine plus
any columns attached by item assignment. -/
structure Frame where
  rows : List SRow
  extraCols : List (String × List ℚ)
deriving DecidableEq

/-- The heap of live dataframe objects; a frame reference is an index. -/
abbrev Heap := List Frame

/-- `df.copy()`: allocate a fresh frame with the same contents; returns the
grown heap and the reference of the copy. -/
def copyFrame (h : Heap) (i : Nat) : Heap × Nat :=
  (h ++ [h.getD i { rows := [], extraCols := [] }], h.length)

/-- `df.sort_values(DATE_COL)`: allocate a fresh frame whose rows are sorted
by date (pandas `sort_values` is not in place by default). -/
def sortValuesFrame (h : Heap) (i : Nat) : Heap × Nat :=
  let f := h.getD i { rows := [], extraCols := [] }
  (h ++ [{ f with rows := sortByDate f.rows }], h.length)

/-- `df[c] = v`: in-place column assignment on the frame at reference `i`. -/
def setColumn (h : Heap) (i : Nat) (c : String) (v : List ℚ) : Heap :=
  match h.get? i with
  | none => h
  | some f => h.set i { f with extraCols := f.extraCols ++ [(c, v)] }

/-- The body of `plot_moving_average` as a heap program (lines 118-120): the
caller's frame is placed at reference 0, then
`ma_df = target_df.copy().sort_values(DATE_COL)` allocates the copy and the
sorted frame, and the two rolling means are assigned to columns `MA7` and
`MA14` of `ma_df`.  Returns the final heap and the reference of `ma_df`. -/
def plotMovingAverageHeap (target : Frame) : Heap × Nat :=
  let h0 : Heap := [target]
  let c1 := copyFrame h0 0
  let c2 := sortValuesFrame c1.1 c1.2
  let vals := ((c2.1.getD c2.2 { rows := [], extraCols := [] }).rows).map SRow.value
  let h3 := setColumn c2.1 c2.2 "MA7" (rollingMean 7 vals)
  let h4 := setColumn h3 c2.2 "MA14" (rollingMean 14 vals)
  (h4, c2.2)

/-! ### Shared structural lemmas about the embedded operations. -/

lemma sortByDate_perm (s : List SRow) : (sortByDate s).Perm s :=
  List.perm_insertionSort _ s

lemma sortByDate_length (s : List SRow) : (sortByDate s).length = s.length :=
  (sortByDate_perm s).length_eq

lemma sortByDate_sorted (s : List SRow) :
    (sortByDate s).Sorted (fun a b => a.date ≤ b.date) :=
  List.sorted_insertionSort _ s

lemma rollingMean_length (w : Nat) (xs : List ℚ) :
    (rollingMean w xs).length = xs.length := by
  simp [rollingMean]

lemma windowAt_length (w : Nat) (xs : List ℚ) (p : Nat) (hp : p < xs.length) :
    (windowAt w xs p).length = min w (p + 1) := by
  simp [windowAt]
  omega

lemma rollingMean_getElem (w : Nat) (xs : List ℚ) (p : Nat)
    (hp : p < (rollingMean w xs).length) :
    (rollingMean w xs)[p] = (windowAt w xs p).sum / ((windowAt w xs p).length : ℚ) := by
  simp [rollingMean]

lemma computeRollingAverages_length (s : List SRow) :
    (computeRollingAverages s).length = s.length := by
  simp [computeRollingAverages, rollingMean_length, sortByDate_length]

lemma computeRollingAverages_getElem (s : List SRow) (p : Nat)
    (hp : p < (computeRollingAverages s).length) :
    (computeRollingAverages s)[p] =
      { date := ((sortByDate s).getD p default).date,
        value := ((sortByDate s).getD p default).value,
        ma7 := (windowAt 7 ((sortByDate s).map SRow.value) p).sum /
          ((windowAt 7 ((sortByDate s).map SRow.value) p).length : ℚ),
        ma14 := (windowAt 14 ((sortByDate s).map SRow.value) p).sum /
          ((windowAt 14 ((sortByDate s).map SRow.value) p).length : ℚ) } := by
  have hps : p < s.length := by
    simpa [computeRollingAverages_length] using hp
  have h1 : p < (sortByDate s).length := by simpa [sortByDate_length]
  simp [computeRollingAverages, List.getElem_map, List.getElem_zip, rollingMean_getElem,
    List.getD, h1]

/-! ### Claim theorems -/

/-- C1: filtering a loaded table by a model value returns exactly the rows
whose model column equals that value, and the union of the filtered views
over all distinct model values of the table is exactly the original set of
rows. -/
theorem filterByModel_partition (t : Table) (m : String) :
    (∀ r, r ∈ filterByModel t m ↔ r ∈ t ∧ r.model = m) ∧
    (∀ r, r ∈ t ↔ ∃ mo ∈ distinctModels t, r ∈ filterByModel t mo) := by
  constructor
  · intro r
    simp [filterByModel, List.mem_filter, beq_iff_eq]
  · intro r
    constructor
    · intro hr
      refine ⟨r.model, ?_, ?_⟩
      · simp only [distinctModels, List.mem_dedup, List.mem_map]
        exact ⟨r, hr, rfl⟩
      · simp [filterByModel, List.mem_filter, hr]
    · rintro ⟨mo, _, hmem⟩
      exact (List.mem_filter.mp hmem).1

/-- C8: filtering by a model value that does not occur in the table's model
column returns the zero-row view; the filter is a total operation, so the
empty view is an ordinary value, not an error. -/
theorem filterByModel_absent_empty (t : Table) (m : String)
    (h : m ∉ t.map Record.model) : filterByModel t m = [] := by
  rw [filterByModel, List.filter_eq_nil_iff]
  intro r hr
  simp only [beq_iff_eq]
  intro heq
  exact h (List.mem_map.mpr ⟨r, hr, heq⟩)

/-- A one-row table whose only model value is `"A"`. -/
def absentModelTable : Table :=
  [{ date := 1, model := "A", machine := 1, store := "S", metrics := [] }]

/-- Witness for C8 at a concrete table and an absent model value. -/
theorem filterByModel_absent_empty_witness :
    filterByModel absentModelTable "B" = [] :=
  filterByModel_absent_empty absentModelTable "B" (by decide)

/-- The three-row single-machine table of the end-to-end example: dates
2024-01-01, 2024-01-02, 2024-01-08 and metric X values 100, 150, 200. -/
def exampleTable : Table :=
  [{ date := 20240101, model := "M1", machine := 1, store := "S", metrics := [("X", 100)] },
   { date := 20240102, model := "M1", machine := 1, store := "S", metrics := [("X", 150)] },
   { date := 20240108, model := "M1", machine := 1, store := "S", metrics := [("X", 200)] }]

/-- C3: on the example series (2024-01-01, 100), (2024-01-02, 150),
(2024-01-08, 200) the 7-day means are [100, 125, 150], the output has exactly
the three input rows — no synthetic rows are inserted for the absent dates
2024-01-03 … 2024-01-07, the window ranging over present rows only. -/
theorem rolling_example_no_gap_fill :
    computeRollingAverages (machineSeries exampleTable 1 "X") =
      [⟨20240101, 100, 100, 100⟩, ⟨20240102, 150, 125, 125⟩, ⟨20240108, 200, 150, 150⟩] := by
  simp [machineSeries, exampleTable, getMetric, computeRollingAverages, sortByDate,
    List.insertionSort, List.orderedInsert, rollingMean, windowAt, List.range_succ,
    DRow.mk.injEq]
  norm_num

/-- C10: the moving-average computation operates on a copy: after running the
body of `plot_moving_average`, the caller's frame (heap reference 0) holds
exactly the rows and columns it held before; MA7/MA14 are attached only to
the copy. -/
theorem plotMovingAverage_preserves_caller (target : Frame) :
    ((plotMovingAverageHeap target).1).getD 0 { rows := [], extraCols := [] } = target :=
  rfl

/-- A view in which two records share the (machine, date) key (1, 2024-01-01)
with different metric values. -/
def dupView : Table :=
  [{ date := 20240101, model := "M1", machine := 1, store := "S", metrics := [("X", 100)] },
   { date := 20240101, model := "M1", machine := 1, store := "S", metrics := [("X", 200)] }]

/-- C5 counterexample: on a view with a duplicated (machine, date) key, the
pivot of line 184 raises the pandas `ValueError` — it does not silently pick
one of the duplicate values (there is no successful pivot at all). -/
theorem pivot_duplicate_counterexample :
    buildPivot dupView "X" = .error "Index contains duplicate entries, cannot reshape" ∧
    ¬ ∃ P, buildPivot dupView "X" = Except.ok P := by
  have h : buildPivot dupView "X" =
      .error "Index contains duplicate entries, cannot reshape" := by
    simp [buildPivot, dupView, pivotKeys]
  refine ⟨h, ?_⟩
  rintro ⟨P, hP⟩
  rw [h] at hP
  cases hP

/-- C5 (amended): whenever more than one record of the view shares a
(machine, date) pair, pivot construction raises the pandas
duplicate-entries error instead of building a pivot. -/
theorem pivot_duplicate_raises (view : Table) (metric : String)
    (h : ¬ (pivotKeys view).Nodup) :
    buildPivot view metric = .error "Index contains duplicate entries, cannot reshape" := by
  simp [buildPivot, h]

/-- Witness for the amended C5 at the concrete duplicated view. -/
theorem pivot_duplicate_raises_witness :
    buildPivot dupView "X" = .error "Index contains duplicate entries, cannot reshape" :=
  pivot_duplicate_raises dupView "X" (by decide)

/-- With pairwise-distinct (machine, date) keys, looking a row's own key up
in the view finds exactly that row. -/
lemma find?_key_self (view : Table) (h : (pivotKeys view).Nodup) (r : Record)
    (hr : r ∈ view) :
    view.find? (fun x => x.machine == r.machine && x.date == r.date) = some r := by
  induction view with
  | nil => cases hr
  | cons a l ih =>
    have hkeys : pivotKeys (a :: l) = (a.machine, a.date) :: pivotKeys l := rfl
    rw [hkeys, List.nodup_cons] at h
    rcases List.mem_cons.mp hr with rfl | hmem
    · simp [List.find?]
    · by_cases hk : (a.machine == r.machine && a.date == r.date) = true
      · exfalso
        apply h.1
        simp only [Bool.and_eq_true, beq_iff_eq] at hk
        have : (a.machine, a.date) = (r.machine, r.date) := by rw [hk.1, hk.2]
        rw [this]
        exact List.mem_map.mpr ⟨r, hmem, rfl⟩
      · rw [List.find?_cons_of_neg _ (by simpa using hk)]
        exact ih h.2 hmem

/-- C6: over a view with exactly one record per (machine, date) pair, the
pivot succeeds; its grid has pairwise-distinct keys, holds the metric's value
at each pair present in the view, and holds the explicit no-value marker
`none` (never zero) at every (machine, date) combination absent from the
view. -/
theorem buildPivot_unique_ok (view : Table) (metric : String)
    (h : (pivotKeys view).Nodup) :
    ∃ P, buildPivot view metric = .ok P ∧
      (P.map Prod.fst).Nodup ∧
      (∀ r ∈ view, ((r.machine, r.date), getMetric r metric) ∈ P) ∧
      (∀ m d, m ∈ view.map Record.machine → d ∈ view.map Record.date →
        (∀ r ∈ view, ¬(r.machine = m ∧ r.date = d)) →
        ((m, d), (none : Option ℚ)) ∈ P) := by
  refine ⟨(((view.map Record.machine).dedup).product ((view.map Record.date).dedup)).map
      (fun md => (md, cellValue view metric md.1 md.2)), by simp [buildPivot, h], ?_, ?_, ?_⟩
  · rw [List.map_map]
    have : (Prod.fst ∘ fun md : Nat × Nat => (md, cellValue view metric md.1 md.2)) = id := by
      funext md; rfl
    rw [this, List.map_id]
    exact List.Nodup.product (List.nodup_dedup _) (List.nodup_dedup _)
  · intro r hrv
    apply List.mem_map.mpr
    refine ⟨(r.machine, r.date), ?_, ?_⟩
    · exact List.mem_product.mpr ⟨List.mem_dedup.mpr (List.mem_map.mpr ⟨r, hrv, rfl⟩),
        List.mem_dedup.mpr (List.mem_map.mpr ⟨r, hrv, rfl⟩)⟩
    · simp [cellValue, find?_key_self view h r hrv]
  · intro m d hm hd habsent
    apply List.mem_map.mpr
    refine ⟨(m, d), ?_, ?_⟩
    · exact List.mem_product.mpr ⟨List.mem_dedup.mpr hm, List.mem_dedup.mpr hd⟩
    · have hfind : view.find? (fun x => x.machine == m && x.date == d) = none := by
        apply List.find?_eq_none.mpr
        intro x hx
        simp only [Bool.and_eq_true, beq_iff_eq, not_and]
        intro h1 h2
        exact habsent x hx ⟨h1, h2⟩
      simp [cellValue, hfind]

/-- A two-record view with distinct (machine, date) keys. -/
def uniqueView : Table :=
  [{ date := 11, model := "M1", machine := 1, store := "S", metrics := [("X", 100)] },
   { date := 12, model := "M1", machine := 2, store := "S", metrics := [("X", 200)] }]

/-- Witness for C6 at a concrete duplicate-free view. -/
theorem buildPivot_unique_ok_witness :
    ∃ P, buildPivot uniqueView "X" = .ok P ∧
      (P.map Prod.fst).Nodup ∧
      (∀ r ∈ uniqueView, ((r.machine, r.date), getMetric r "X") ∈ P) ∧
      (∀ m d, m ∈ uniqueView.map Record.machine → d ∈ uniqueView.map Record.date →
        (∀ r ∈ uniqueView, ¬(r.machine = m ∧ r.date = d)) →
        ((m, d), (none : Option ℚ)) ∈ P) :=
  buildPivot_unique_ok uniqueView "X" (by decide)

/-- C2: for a non-empty machine series, the moving-average computation emits
one output row per input row, and the first output row's 7-day and 14-day
means both equal its raw value (the clipped window of `min_periods=1`
degenerates to the single first observation). -/
theorem rolling_length_and_first_row (s : List SRow) (h : s ≠ []) :
    (computeRollingAverages s).length = s.length ∧
    ∃ r0 rest, computeRollingAverages s = r0 :: rest ∧
      r0.ma7 = r0.value ∧ r0.ma14 = r0.value := by
  refine ⟨computeRollingAverages_length s, ?_⟩
  have hlen : 0 < (computeRollingAverages s).length := by
    rw [computeRollingAverages_length]
    exact List.length_pos.mpr h
  obtain ⟨r0, rest, heq⟩ := List.exists_cons_of_ne_nil (List.ne_nil_of_length_pos hlen)
  have hsortlen : 0 < (sortByDate s).length := by
    rw [sortByDate_length]
    exact List.length_pos.mpr h
  obtain ⟨y, ys, hsy⟩ := List.exists_cons_of_ne_nil (List.ne_nil_of_length_pos hsortlen)
  have h0 : (computeRollingAverages s)[0] = r0 := by
    simp only [heq, List.getElem_cons_zero]
  rw [computeRollingAverages_getElem s 0 hlen] at h0
  refine ⟨r0, rest, heq, ?_, ?_⟩ <;>
  · rw [← h0]
    simp [hsy, windowAt]

/-- Witness for C2 at a concrete one-row series. -/
theorem rolling_length_and_first_row_witness :
    (computeRollingAverages [⟨1, 42⟩]).length = ([⟨1, 42⟩] : List SRow).length ∧
    ∃ r0 rest, computeRollingAverages [⟨1, 42⟩] = r0 :: rest ∧
      r0.ma7 = r0.value ∧ r0.ma14 = r0.value :=
  rolling_length_and_first_row [⟨1, 42⟩] (by decide)

/-- C4: for a series of at least 14 observations on consecutive daily dates
with strictly increasing values, the 14-day mean of the last output row is
the arithmetic mean of the last 14 raw values. -/
theorem rolling_ma14_last (s : List SRow)
    (h14 : 14 ≤ s.length)
    (hdates : ∀ i, i < s.length → (s.getD i default).date = (s.getD 0 default).date + i)
    (hvals : ∀ j, j < s.length → ∀ i, i < j →
      (s.getD i default).value < (s.getD j default).value) :
    ∃ dr, (computeRollingAverages s).getLast? = some dr ∧
      ((s.map SRow.value).drop (s.length - 14)).length = 14 ∧
      dr.ma14 = ((s.map SRow.value).drop (s.length - 14)).sum / 14 := by
  have hsorted : s.Sorted (fun a b => a.date ≤ b.date) := by
    rw [List.Sorted, List.pairwise_iff_getElem]
    intro i j hi hj hij
    have hdi := hdates i (by omega)
    have hdj := hdates j hj
    rw [List.getD_eq_getElem] at hdi hdj
    · rw [hdi, hdj]
      omega
  have hss : sortByDate s = s := List.Sorted.insertionSort_eq hsorted
  have hcl : (computeRollingAverages s).length = s.length :=
    computeRollingAverages_length s
  have hp : s.length - 1 < (computeRollingAverages s).length := by omega
  refine ⟨(computeRollingAverages s)[s.length - 1], ?_, ?_, ?_⟩
  · rw [List.getLast?_eq_getElem?, List.getElem?_eq_getElem (by omega)]
    congr 1
    congr 1
    omega
  · rw [List.length_drop, List.length_map]
    omega
  · rw [computeRollingAverages_getElem s (s.length - 1) hp]
    have hvlen : ((sortByDate s).map SRow.value).length = s.length := by
      rw [List.length_map, sortByDate_length]
    have hidx : s.length - 1 + 1 = s.length := by omega
    simp only [windowAt, hidx, hss]
    rw [← List.length_map s SRow.value, List.take_length, List.length_map]
    have hdl : ((s.map SRow.value).drop (s.length - 14)).length = 14 := by
      rw [List.length_drop, List.length_map]
      omega
    rw [hdl]
    norm_num

/-- Fourteen observations on consecutive daily dates 0 … 13 with strictly
increasing values 0 … 13. -/
def series14 : List SRow :=
  [⟨0, 0⟩, ⟨1, 1⟩, ⟨2, 2⟩, ⟨3, 3⟩, ⟨4, 4⟩, ⟨5, 5⟩, ⟨6, 6⟩,
   ⟨7, 7⟩, ⟨8, 8⟩, ⟨9, 9⟩, ⟨10, 10⟩, ⟨11, 11⟩, ⟨12, 12⟩, ⟨13, 13⟩]

/-- Witness for C4 at the concrete 14-day series. -/
theorem rolling_ma14_last_witness :
    ∃ dr, (computeRollingAverages series14).getLast? = some dr ∧
      ((series14.map SRow.value).drop (series14.length - 14)).length = 14 ∧
      dr.ma14 = ((series14.map SRow.value).drop (series14.length - 14)).sum / 14 :=
  rolling_ma14_last series14 (by decide) (by decide) (by decide)

/-- C7 counterexample: the computation does sort its input, but two inputs
that are permutations of each other need not give the same output when two
rows share a date — swapping the two rows of date 5 changes the raw-value
column and the first 7-day mean of the output. -/
theorem rolling_perm_counterexample :
    ([⟨5, 1⟩, ⟨5, 2⟩] : List SRow).Perm [⟨5, 2⟩, ⟨5, 1⟩] ∧
    computeRollingAverages [⟨5, 1⟩, ⟨5, 2⟩] ≠ computeRollingAverages [⟨5, 2⟩, ⟨5, 1⟩] := by
  constructor
  · exact List.Perm.swap _ _ _
  · intro hEq
    have h1 : ((computeRollingAverages [⟨5, 1⟩, ⟨5, 2⟩]).getD 0 default).value =
        ((computeRollingAverages [⟨5, 2⟩, ⟨5, 1⟩]).getD 0 default).value := by
      rw [hEq]
    simp [computeRollingAverages, sortByDate, List.insertionSort, List.orderedInsert,
      rollingMean, windowAt, List.range_succ, List.getD] at h1

/-- The dates of the output of the moving-average computation are exactly the
dates of the date-sorted input. -/
lemma computeRollingAverages_map_date (s : List SRow) :
    (computeRollingAverages s).map DRow.date = (sortByDate s).map SRow.date := by
  apply List.ext_getElem
  · simp [computeRollingAverages_length, sortByDate_length]
  · intro i h1 h2
    rw [List.getElem_map, List.getElem_map,
      computeRollingAverages_getElem s i (by simpa using h1)]
    rw [List.getD_eq_getElem]

/-- With pairwise-distinct dates, sorting by date is strictly monotone. -/
lemma sortByDate_strict (zs : List SRow) (hnodup : (zs.map SRow.date).Nodup) :
    (sortByDate zs).Sorted (fun a b => a.date < b.date) := by
  have hle := sortByDate_sorted zs
  have hne : ((sortByDate zs).map SRow.date).Nodup :=
    (((sortByDate_perm zs).map SRow.date).nodup_iff).mpr hnodup
  have hpair : (sortByDate zs).Pairwise (fun a b => a.date ≠ b.date) :=
    List.pairwise_map.mp hne
  exact (hle.and hpair).imp (fun h => lt_of_le_of_ne h.1 h.2)

/-- With pairwise-distinct dates, any two permutations of a series sort to
the same date-ordered list. -/
lemma sortByDate_eq_of_perm (xs ys : List SRow) (hperm : xs.Perm ys)
    (hnodup : (xs.map SRow.date).Nodup) : sortByDate xs = sortByDate ys := by
  have hnodup2 : (ys.map SRow.date).Nodup := ((hperm.map SRow.date).nodup_iff).mp hnodup
  exact List.eq_of_perm_of_sorted
    (((sortByDate_perm xs).trans hperm).trans (sortByDate_perm ys).symm)
    (sortByDate_strict xs hnodup) (sortByDate_strict ys hnodup2)

/-- C7 (amended): the moving-average computation sorts its input by date
itself — for every input, in any row order, the output dates are ascending;
and when the series has pairwise-distinct dates, two inputs that are
permutations of each other yield the same output. -/
theorem rolling_sorts_itself :
    (∀ s : List SRow, ((computeRollingAverages s).map DRow.date).Sorted (· ≤ ·)) ∧
    (∀ xs ys : List SRow, xs.Perm ys → (xs.map SRow.date).Nodup →
      computeRollingAverages xs = computeRollingAverages ys) := by
  constructor
  · intro s
    rw [computeRollingAverages_map_date]
    exact List.pairwise_map.mpr (sortByDate_sorted s)
  · intro xs ys hperm hnodup
    have hsort : sortByDate xs = sortByDate ys := sortByDate_eq_of_perm xs ys hperm hnodup
    unfold computeRollingAverages
    rw [hsort]

/-- Witness for the amended C7 at a concrete two-row series with distinct
dates, in the two possible input orders. -/
theorem rolling_sorts_itself_witness :
    computeRollingAverages [⟨2, 10⟩, ⟨1, 20⟩] = computeRollingAverages [⟨1, 20⟩, ⟨2, 10⟩] :=
  rolling_sorts_itself.2 [⟨2, 10⟩, ⟨1, 20⟩] [⟨1, 20⟩, ⟨2, 10⟩]
    (List.Perm.swap _ _ _) (by decide)

/-- A successful load only ever comes from a parsed CSV resource that carries
all three mandatory columns. -/
lemma load_ok_columns (r : Resource) (t : List String × List (List String))
    (h : load r = .ok t) :
    ∃ cols rows, r = .csv cols rows ∧
      DATE_COL ∈ cols ∧ MODEL_COL ∈ cols ∧ MACHINE_COL ∈ cols := by
  cases r with
  | unreachable c => simp [load, load_data] at h
  | unparsable c => simp [load, load_data] at h
  | csv cols rows =>
    refine ⟨cols, rows, rfl, ?_⟩
    by_cases hd : DATE_COL ∈ cols
    · rw [load, load_data] at h
      simp only [if_pos hd] at h
      cases hfind : rows.find? (fun row => !((dateCell cols row).bind parseDate).isSome) with
      | some badRow => simp only [hfind] at h; cases h
      | none =>
        simp only [hfind] at h
        cases hmiss : firstMissingColumn cols with
        | some c => simp only [hmiss] at h; cases h
        | none =>
          have hall := List.find?_eq_none.mp hmiss
          have hmo : MODEL_COL ∈ cols := by
            have := hall MODEL_COL (by simp)
            simpa using this
          have hma : MACHINE_COL ∈ cols := by
            have := hall MACHINE_COL (by simp)
            simpa using this
          exact ⟨hd, hmo, hma⟩
    · rw [load, load_data] at h
      simp only [if_neg hd] at h
      cases h

/-- C9: the load pipeline fails, carrying the original cause, when the
resource is unreachable or unparsable; it fails when any of the mandatory
date / model / machine columns is absent; and it succeeds only on a parsed
CSV in which all three mandatory columns are present. -/
theorem load_contract :
    (∀ cause, load (.unreachable cause) = .error (.fetch cause)) ∧
    (∀ cause, load (.unparsable cause) = .error (.parse cause)) ∧
    (∀ cols rows, (DATE_COL ∉ cols ∨ MODEL_COL ∉ cols ∨ MACHINE_COL ∉ cols) →
      ∃ e, load (.csv cols rows) = .error e) ∧
    (∀ r t, load r = .ok t →
      ∃ cols rows, r = .csv cols rows ∧
        DATE_COL ∈ cols ∧ MODEL_COL ∈ cols ∧ MACHINE_COL ∈ cols) := by
  refine ⟨fun cause => rfl, fun cause => rfl, ?_, fun r t h => load_ok_columns r t h⟩
  intro cols rows hmiss
  cases hload : load (.csv cols rows) with
  | error e => exact ⟨e, rfl⟩
  | ok t =>
    obtain ⟨cols2, rows2, heq, hd, hmo, hma⟩ := load_ok_columns _ t hload
    injection heq with h1 h2
    subst h1
    rcases hmiss with hm | hm | hm <;> exact absurd (by assumption) hm

/-- Witness for C9: a concrete unreachable resource and a concrete header
missing the machine column. -/
theorem load_contract_witness :
    load (.unreachable "HTTP 404") = .error (.fetch "HTTP 404") ∧
    (∃ e, load (.csv [DATE_COL, MODEL_COL] []) = .error e) :=
  ⟨load_contract.1 "HTTP 404",
   load_contract.2.2.1 [DATE_COL, MODEL_COL] [] (Or.inr (Or.inr (by decide)))⟩

end SlotViewer
